import Mathlib

/-!
Shallow embedding of `src/blop/bayesian/dofs.py`: the DOF descriptor, the
DOFList collection with its name-uniqueness invariant, and the simulated
signal generators.  Python exceptions are modelled by `Except PyErr`;
fresh UUID strings are passed in as explicit parameters.
-/

set_option maxHeartbeats 1000000

namespace Blop

/-- Python exception classes raised by the code in `dofs.py`. -/
inductive PyErr
  | valueError
  | typeError
  | attributeError
  | indexError
deriving DecidableEq, Repr

/-- Model of an ophyd device as seen by this module: its `name` attribute
(`none` models an object without one, e.g. Python's `None`), whether it is an
instance of `SignalRO`, and its `kind` attribute. -/
structure Device where
  name : Option String
  isSignalRO : Bool
  kind : String
deriving DecidableEq, Repr

/-- `Signal(name=name)`: a fresh writable signal with the given name. -/
def mkSignal (name : String) : Device :=
  { name := some name, isSignalRO := false, kind := "normal" }

/-- A fully constructed DOF, i.e. the state of a `DOF` dataclass instance
after `__post_init__` has run (so `name`, `device` and `latent_group` are
set). -/
structure DOF where
  device : Device
  description : Option String
  name : String
  limits : Float × Float
  units : String
  read_only : Bool
  active : Bool
  tags : List String
  log : Bool
  latent_group : String
  uuid : String
deriving Repr

/-- The arguments accepted by the `DOF` dataclass constructor, before
`__post_init__` fills in defaults. -/
structure DOFArgs where
  device : Option Device := none
  description : Option String := none
  name : Option String := none
  limits : Float × Float := (-10.0, 10.0)
  units : String := ""
  read_only : Bool := false
  active : Bool := true
  tags : List String := []
  log : Bool := false
  latent_group : Option String := none
deriving Repr

/-- The name resolved by `__post_init__`: `self.name` when given, else
`self.device.name` when `hasattr(self.device, "name")` (false for a `None`
device or a device without a name attribute), else the fresh `self.uuid`. -/
def resolveName (args : DOFArgs) (uuid : String) : String :=
  match args.name with
  | some n => n
  | none =>
    match args.device with
    | some dev =>
      match dev.name with
      | some dn => dn
      | none => uuid
    | none => uuid

/-- The device resolved by `__post_init__`: the supplied one, or a fresh
`Signal(name=self.name)` when the device was `None`. -/
def resolveDevice (args : DOFArgs) (name : String) : Device :=
  match args.device with
  | some dev => dev
  | none => mkSignal name

/-- `DOF.__post_init__`: fills the `uuid`, resolves the name and the device
(see `resolveName` and `resolveDevice`), rejects a read-only device unless
`read_only=True`, resolves a `None` latent group to a fresh UUID, and sets
the device kind to hinted.  The two fresh UUID strings drawn by
`uuid.uuid4()` are the parameters `uuid1` (bound to `self.uuid`) and `uuid2`
(used for the latent group). -/
def DOF.postInit (args : DOFArgs) (uuid1 uuid2 : String) : Except PyErr DOF :=
  let uuid := uuid1
  let name : String := resolveName args uuid
  let device : Device := resolveDevice args name
  if !args.read_only && device.isSignalRO then
    .error .valueError
  else
    let latent_group : String :=
      match args.latent_group with
      | some g => g
      | none => uuid2
    .ok { device := { device with kind := "hinted" }
          description := args.description
          name := name
          limits := args.limits
          units := args.units
          read_only := args.read_only
          active := args.active
          tags := args.tags
          log := args.log
          latent_group := latent_group
          uuid := uuid }

/-- A concrete DOF named `a`, as produced by `DOF(name="a")`. -/
def exDofA : DOF :=
  { device := { mkSignal "a" with kind := "hinted" }
    description := none
    name := "a"
    limits := (-10.0, 10.0)
    units := ""
    read_only := false
    active := true
    tags := []
    log := false
    latent_group := "group-a"
    uuid := "uuid-a" }

/-- A concrete DOF named `b` carrying the tag `t1`, as produced by
`DOF(name="b", tags=["t1"])`. -/
def exDofB : DOF :=
  { device := { mkSignal "b" with kind := "hinted" }
    description := none
    name := "b"
    limits := (-10.0, 10.0)
    units := ""
    read_only := false
    active := true
    tags := ["t1"]
    log := false
    latent_group := "group-b"
    uuid := "uuid-b" }

/-- `_validate_dofs`: collects the names, finds those occurring more than
once (via `np.unique(..., return_counts=True)`; here `dedup`/`count`, which
yields the same set of duplicates), and raises `ValueError` when any exist. -/
def _validate_dofs (dofs : List DOF) : Except PyErr (List DOF) :=
  let dof_names := dofs.map fun dof => dof.name
  let duplicate_dof_names := dof_names.dedup.filter fun n => dof_names.count n > 1
  if duplicate_dof_names.length > 0 then .error .valueError
  else .ok dofs

/-- The collection type `DOFList`, wrapping the underlying Python list. -/
structure DOFList where
  dofs : List DOF

/-- `DOFList.__init__`: validates the supplied dofs and stores them. -/
def DOFList.init (dofs : List DOF) : Except PyErr DOFList :=
  match _validate_dofs dofs with
  | .error e => .error e
  | .ok _ => .ok ⟨dofs⟩

/-- `DOFList.names`. -/
def DOFList.names (l : DOFList) : List String :=
  l.dofs.map fun dof => dof.name

/-- `DOFList.add`: validates the extended list before appending; if
validation raises, the collection is unmodified (the error carries no new
state). -/
def DOFList.add (l : DOFList) (dof : DOF) : Except PyErr DOFList :=
  match _validate_dofs (l.dofs ++ [dof]) with
  | .error e => .error e
  | .ok _ => .ok ⟨l.dofs ++ [dof]⟩

/-- The DOFLists reachable through the public constructors: `DOFList(dofs)`
and successful `add` calls. -/
inductive Reachable : DOFList → Prop
  | init (dofs : List DOF) (l : DOFList) : DOFList.init dofs = .ok l → Reachable l
  | add (l : DOFList) (d : DOF) (l' : DOFList) :
      Reachable l → DOFList.add l d = .ok l' → Reachable l'

/-- The kinds of Python value a `DOFList` is indexed with in `__getitem__`:
an `int`, a `str`, or anything else (`type(i)` neither `int` nor `str`). -/
inductive PyIndex
  | int (i : Int)
  | str (s : String)
  | other

/-- Python list indexing `xs[i]` on a list of DOFs: negative indices count
from the end, and an out-of-range index raises `IndexError`. -/
def listGetInt (xs : List DOF) (i : Int) : Except PyErr DOF :=
  let j : Int := if i < 0 then i + xs.length else i
  if 0 ≤ j then
    match xs.get? j.toNat with
    | some d => .ok d
    | none => .error .indexError
  else .error .indexError

/-- `DOFList.__getitem__`: an `int` indexes the underlying list, a `str` is
looked up via `self.names.index(i)` (first occurrence; `list.index` raises
`ValueError` when the name is absent), anything else raises `ValueError`. -/
def DOFList.getitem (l : DOFList) (i : PyIndex) : Except PyErr DOF :=
  match i with
  | .int n => listGetInt l.dofs n
  | .str s =>
      if s ∈ l.names then listGetInt l.dofs ((l.names.indexOf s : Nat) : Int)
      else .error .valueError
  | .other => .error .valueError

/-- Python subscription `dof[key]` on a DOF instance: the `DOF` dataclass
defines no `__getitem__`, so any subscription raises `TypeError`. -/
def DOF.subscript (_dof : DOF) (_key : String) : Except PyErr (List String) :=
  .error .typeError

/-- `DOFList._dof_read_only_mask`: per-dof mask, `True` when `read_only` is
`None`. -/
def DOFList._dof_read_only_mask (l : DOFList) (read_only : Option Bool) : List Bool :=
  l.dofs.map fun dof =>
    match read_only with
    | some r => dof.read_only == r
    | none => true

/-- `DOFList._dof_active_mask`: per-dof mask, `True` when `active` is
`None`. -/
def DOFList._dof_active_mask (l : DOFList) (active : Option Bool) : List Bool :=
  l.dofs.map fun dof =>
    match active with
    | some a => dof.active == a
    | none => true

/-- `DOFList._dof_tags_mask`: all-`True` when `tags` is empty (falsy);
otherwise evaluates `np.isin(dof["tags"], tags).any()` per dof — but the
subscription `dof["tags"]` raises `TypeError` (see `DOF.subscript`), so the
first dof aborts the comprehension. -/
def DOFList._dof_tags_mask (l : DOFList) (tags : List String) : Except PyErr (List Bool) :=
  if tags.isEmpty then .ok (l.dofs.map fun _ => true)
  else l.dofs.mapM fun dof =>
    (dof.subscript "tags").map fun ts => ts.any fun t => tags.contains t

/-- `DOFList._dof_mask`: conjunction `(k and m and t)` of the read-only,
active and tags masks, zipped elementwise. -/
def DOFList._dof_mask (l : DOFList) (active read_only : Option Bool)
    (tags : List String) : Except PyErr (List Bool) :=
  match l._dof_tags_mask tags with
  | .error e => .error e
  | .ok tmask =>
      .ok ((((l._dof_read_only_mask read_only).zip (l._dof_active_mask active)).zip
        tmask).map fun kmt => kmt.1.1 && kmt.1.2 && kmt.2)

/-- `DOFList.subset`: keeps the dofs whose mask entry is true and wraps them
in a fresh `DOFList` (whose constructor re-validates the names). -/
def DOFList.subset (l : DOFList) (active read_only : Option Bool)
    (tags : List String) : Except PyErr DOFList :=
  match l._dof_mask active read_only tags with
  | .error e => .error e
  | .ok mask => DOFList.init (((l.dofs.zip mask).filter fun p => p.2).map fun p => p.1)

/-- The state of a `ConstantReadback` signal: its `constant` attribute, set
once at construction. -/
structure ConstantReadback (α : Type) where
  constant : α

/-- `ConstantReadback.get`: the body reads neither the clock nor any mutable
state, so we pass the ambient time explicitly (as the sibling generators
`BrownianMotion` and `TimeReadback` read it) and return the value together
with the unchanged signal state. -/
def ConstantReadback.get {α : Type} (s : ConstantReadback α) (_time : Nat) :
    α × ConstantReadback α :=
  (s.constant, s)

/-- Runs one `get` per entry of `times` (the clock value at each call),
threading the signal state through, and collects the readings. -/
def ConstantReadback.runGets {α : Type} (s : ConstantReadback α) :
    List Nat → List α
  | [] => []
  | t :: ts =>
      let r := s.get t
      r.1 :: r.2.runGets ts

/-- The attribute names bound in the class body of `DOFList` in `dofs.py`
(methods and properties); `__len__`, `__repr__` and the rest of the class
body appear here, but no `_subset_dofs` is ever defined. -/
def DOFList.methodNames : List String :=
  ["__init__", "__getitem__", "__len__", "__repr__", "summary", "names",
   "devices", "device_names", "lower_limits", "upper_limits", "limits",
   "readback", "add", "_dof_read_only_mask", "_dof_active_mask",
   "_dof_tags_mask", "_dof_mask", "subset", "activate", "deactivate"]

/-- Attribute lookup on a `DOFList` instance: a name not bound in the class
body raises `AttributeError`. -/
def DOFList.lookupMethod (name : String) : Except PyErr Unit :=
  if DOFList.methodNames.contains name then .ok () else .error .attributeError

/-- `DOFList.activate`: iterates over `self._subset_dofs(...)`, but the
attribute lookup of `_subset_dofs` fails before the loop body can run, so no
dof is mutated; the `.ok` branch is unreachable because `_subset_dofs` is not
among `DOFList.methodNames`. -/
def DOFList.activate (l : DOFList) (_read_only _active : Option Bool)
    (_tags : List String) : Except PyErr DOFList :=
  match DOFList.lookupMethod "_subset_dofs" with
  | .error e => .error e
  | .ok _ => .ok l

/-- `DOFList.deactivate`: same shape as `activate`, setting `active = False`
on the selected dofs — equally unreachable past the failing lookup. -/
def DOFList.deactivate (l : DOFList) (_read_only _active : Option Bool)
    (_tags : List String) : Except PyErr DOFList :=
  match DOFList.lookupMethod "_subset_dofs" with
  | .error e => .error e
  | .ok _ => .ok l

/-- A concrete read-only device (an instance of `SignalRO`). -/
def exRODevice : Device :=
  { name := some "ro-signal", isSignalRO := true, kind := "normal" }

/-- The DOF produced by `DOF()` with every argument defaulted, when the two
fresh UUIDs drawn are `u-1` and `u-2`. -/
def exDofDefault : DOF :=
  { device := { name := some "u-1", isSignalRO := false, kind := "hinted" }
    description := none
    name := "u-1"
    limits := (-10.0, 10.0)
    units := ""
    read_only := false
    active := true
    tags := []
    log := false
    latent_group := "u-2"
    uuid := "u-1" }

lemma validate_ok_iff (dofs : List DOF) :
    _validate_dofs dofs = .ok dofs ↔ (dofs.map fun dof => dof.name).Nodup := by
  unfold _validate_dofs
  set ns := dofs.map fun dof => dof.name with hns
  constructor
  · intro h
    by_contra hnd
    rw [List.nodup_iff_count_le_one] at hnd
    push_neg at hnd
    obtain ⟨a, ha⟩ := hnd
    have hmem : a ∈ ns := by
      have : 0 < ns.count a := lt_of_lt_of_le (by omega) (le_of_lt ha)
      exact List.count_pos_iff.mp this
    have hfilter : a ∈ ns.dedup.filter fun n => ns.count n > 1 := by
      rw [List.mem_filter]
      exact ⟨List.mem_dedup.mpr hmem, by simpa using ha⟩
    have hlen : (ns.dedup.filter fun n => ns.count n > 1).length > 0 :=
      List.length_pos.mpr (List.ne_nil_of_mem hfilter)
    simp only [hlen, if_pos] at h
    exact Except.noConfusion h
  · intro hnd
    have hnone : (ns.dedup.filter fun n => ns.count n > 1) = [] := by
      rw [List.filter_eq_nil_iff]
      intro a _
      have := List.nodup_iff_count_le_one.mp hnd a
      simp only [gt_iff_lt, decide_eq_true_eq]
      omega
    simp only [hnone, List.length_nil, gt_iff_lt, lt_self_iff_false, if_false]

lemma validate_error_of_dup (dofs : List DOF)
    (h : ¬ (dofs.map fun dof => dof.name).Nodup) :
    _validate_dofs dofs = .error .valueError := by
  unfold _validate_dofs
  set ns := dofs.map fun dof => dof.name with hns
  rw [List.nodup_iff_count_le_one] at h
  push_neg at h
  obtain ⟨a, ha⟩ := h
  have hmem : a ∈ ns := by
    have : 0 < ns.count a := lt_of_lt_of_le (by omega) (le_of_lt ha)
    exact List.count_pos_iff.mp this
  have hfilter : a ∈ ns.dedup.filter fun n => ns.count n > 1 := by
    rw [List.mem_filter]
    exact ⟨List.mem_dedup.mpr hmem, by simpa using ha⟩
  have hlen : (ns.dedup.filter fun n => ns.count n > 1).length > 0 :=
    List.length_pos.mpr (List.ne_nil_of_mem hfilter)
  simp only [hlen, if_pos]

lemma init_ok_names (dofs : List DOF) (l : DOFList) (h : DOFList.init dofs = .ok l) :
    l.names.Nodup := by
  unfold DOFList.init at h
  by_cases hnd : (dofs.map fun dof => dof.name).Nodup
  · rw [(validate_ok_iff dofs).mpr hnd] at h
    cases h
    simpa [DOFList.names] using hnd
  · rw [validate_error_of_dup dofs hnd] at h
    exact Except.noConfusion h

lemma add_ok_names (l : DOFList) (d : DOF) (l' : DOFList)
    (h : DOFList.add l d = .ok l') : DOFList.names l' |>.Nodup := by
  unfold DOFList.add at h
  by_cases hnd : ((l.dofs ++ [d]).map fun dof => dof.name).Nodup
  · rw [(validate_ok_iff _).mpr hnd] at h
    cases h
    simpa [DOFList.names] using hnd
  · rw [validate_error_of_dup _ hnd] at h
    exact Except.noConfusion h

/-- C1: names in a `DOFList` are pairwise distinct.  (a) constructing from a
list whose names repeat raises `ValueError`; (b) `add` of a dof whose name is
already present raises `ValueError` (and, the error being raised by
validation before the append, the collection is unchanged); (c) every
`DOFList` reachable through the constructor and `add` has pairwise-distinct
names. -/
theorem doflist_name_uniqueness :
    (∀ dofs : List DOF, ¬ (dofs.map fun dof => dof.name).Nodup →
      DOFList.init dofs = .error .valueError) ∧
    (∀ (l : DOFList) (d : DOF), d.name ∈ l.names →
      DOFList.add l d = .error .valueError) ∧
    (∀ l : DOFList, Reachable l → l.names.Nodup) := by
  refine ⟨?_, ?_, ?_⟩
  · intro dofs h
    unfold DOFList.init
    rw [validate_error_of_dup dofs h]
  · intro l d hmem
    unfold DOFList.add
    have hdup : ¬ ((l.dofs ++ [d]).map fun dof => dof.name).Nodup := by
      rw [List.map_append]
      intro hnd
      have := List.Nodup.of_append_right hnd
      have hdis := List.disjoint_of_nodup_append hnd
      exact hdis hmem (by simp)
    rw [validate_error_of_dup _ hdup]
  · intro l hr
    induction hr with
    | init dofs l h => exact init_ok_names dofs l h
    | add l d l' _ h _ => exact add_ok_names l d l' h

lemma listGetInt_nat (xs : List DOF) (i : Nat) (h : i < xs.length) :
    listGetInt xs (i : Int) = .ok xs[i] := by
  unfold listGetInt
  have h0 : ¬ ((i : Int) < 0) := by omega
  simp only [h0, if_false, Int.toNat_natCast, le_refl, Int.natCast_nonneg, if_pos]
  rw [List.get?_eq_getElem?, List.getElem?_eq_getElem h]

lemma get_indexOf_name (dofs : List DOF) (s : String) :
    dofs.get? ((dofs.map fun d => d.name).indexOf s) =
      dofs.find? fun d => d.name == s := by
  induction dofs with
  | nil => rfl
  | cons d ds ih =>
    by_cases hd : d.name = s
    · simp [List.indexOf_cons, List.find?_cons, hd]
    · have hbeq : (d.name == s) = false := by simpa using hd
      rw [List.get?_eq_getElem?] at ih
      simp [List.indexOf_cons, List.find?_cons, hbeq, ih]

/-- C3: `__getitem__` behaviour.  (a) an in-range natural index returns the
DOF at that position of the underlying list; (b) a string returns the first
DOF whose name equals it; (c) an index that is neither an `int` nor a `str`
raises `ValueError`. -/
theorem doflist_getitem_spec (l : DOFList) :
    (∀ (i : Nat) (h : i < l.dofs.length),
      l.getitem (.int (i : Int)) = .ok (l.dofs.get ⟨i, h⟩)) ∧
    (∀ (s : String) (d : DOF), (l.dofs.find? fun x => x.name == s) = some d →
      l.getitem (.str s) = .ok d) ∧
    l.getitem .other = .error .valueError := by
  refine ⟨?_, ?_, rfl⟩
  · intro i h
    simpa [DOFList.getitem] using listGetInt_nat l.dofs i h
  · intro s d hfind
    have hmem : s ∈ l.names := by
      have hd := List.find?_some hfind
      have hdm := List.mem_of_find?_eq_some hfind
      have : d.name = s := by simpa using hd
      simp only [DOFList.names, List.mem_map]
      exact ⟨d, hdm, this⟩
    simp only [DOFList.getitem, hmem, if_pos]
    have hidx : (l.names.indexOf s) < l.dofs.length := by
      have := List.indexOf_lt_length.mpr hmem
      simpa [DOFList.names] using this
    rw [listGetInt_nat l.dofs _ hidx]
    have := get_indexOf_name l.dofs s
    rw [hfind] at this
    have hget : l.dofs.get? (l.names.indexOf s) = some d := by
      simpa [DOFList.names] using this
    rw [List.get?_eq_getElem?, List.getElem?_eq_getElem hidx] at hget
    have : l.dofs[l.names.indexOf s] = d := by
      exact Option.some.inj hget
    rw [this]

/-- C3 witness: evaluate all three parts of the `__getitem__` specification
on a concrete two-element `DOFList`. -/
theorem doflist_getitem_spec_witness :
    (DOFList.mk [exDofA, exDofB]).getitem (.int 1) = .ok exDofB ∧
    (DOFList.mk [exDofA, exDofB]).getitem (.str "b") = .ok exDofB ∧
    (DOFList.mk [exDofA, exDofB]).getitem .other = .error .valueError := by
  refine ⟨?_, ?_, (doflist_getitem_spec (DOFList.mk [exDofA, exDofB])).2.2⟩
  · exact (doflist_getitem_spec (DOFList.mk [exDofA, exDofB])).1 1 (by decide)
  · exact (doflist_getitem_spec (DOFList.mk [exDofA, exDofB])).2.1 "b" exDofB rfl

/-- C4: under the name-uniqueness invariant, indexing by the name of the
`i`-th DOF returns the same result as indexing by `i`. -/
theorem doflist_getitem_name_roundtrip (l : DOFList) (hn : l.names.Nodup)
    (i : Nat) (h : i < l.dofs.length) :
    l.getitem (.str (l.dofs.get ⟨i, h⟩).name) = l.getitem (.int (i : Int)) := by
  set s := (l.dofs.get ⟨i, h⟩).name with hs
  have hlen : i < l.names.length := by simpa [DOFList.names] using h
  have hname : l.names.get ⟨i, hlen⟩ = s := by
    simp [DOFList.names, hs, List.getElem_map]
  have hmem : s ∈ l.names := by
    rw [← hname]
    exact List.get_mem l.names _ _
  have hidx : l.names.indexOf s = i := by
    rw [← hname]
    exact List.get_indexOf hn ⟨i, hlen⟩
  simp only [DOFList.getitem, hmem, if_pos, hidx]

/-- C4 witness: the round-trip through the name of the second DOF of a
concrete `DOFList`. -/
theorem doflist_getitem_name_roundtrip_witness :
    (DOFList.mk [exDofA, exDofB]).getitem
        (.str ((DOFList.mk [exDofA, exDofB]).dofs.get ⟨1, by decide⟩).name) =
      (DOFList.mk [exDofA, exDofB]).getitem (.int 1) :=
  doflist_getitem_name_roundtrip (DOFList.mk [exDofA, exDofB])
    (by decide) 1 (by decide)

lemma filter_zip_map {α : Type} (l : List α) (f : α → Bool) :
    ((l.zip (l.map f)).filter fun p => p.2).map (fun p => p.1) = l.filter f := by
  induction l with
  | nil => rfl
  | cons a as ih =>
    by_cases ha : f a
    · simp [List.zip_cons_cons, List.filter_cons, ha, ih]
    · have ha' : f a = false := by simpa using ha
      simp [List.zip_cons_cons, List.filter_cons, ha', ih]

lemma dof_mask_no_tags (l : DOFList) (active read_only : Option Bool) :
    l._dof_mask active read_only [] =
      .ok (l.dofs.map fun dof =>
        ((match read_only with
          | some r => dof.read_only == r
          | none => true) &&
         (match active with
          | some a => dof.active == a
          | none => true) && true)) := by
  simp only [DOFList._dof_mask, DOFList._dof_tags_mask, List.isEmpty_nil, if_pos,
    DOFList._dof_read_only_mask, DOFList._dof_active_mask]
  rw [List.zip_map', List.zip_map', List.map_map]
  rfl

lemma subset_no_tags (l : DOFList) (active read_only : Option Bool) :
    l.subset active read_only [] =
      DOFList.init (l.dofs.filter fun dof =>
        ((match read_only with
          | some r => dof.read_only == r
          | none => true) &&
         (match active with
          | some a => dof.active == a
          | none => true) && true)) := by
  simp only [DOFList.subset, dof_mask_no_tags]
  rw [filter_zip_map]

lemma names_nodup_filter (l : DOFList) (hn : l.names.Nodup) (f : DOF → Bool) :
    ((l.dofs.filter f).map fun dof => dof.name).Nodup := by
  have hsub : List.Sublist (l.dofs.filter f) l.dofs := List.filter_sublist l.dofs
  have := hsub.map fun dof => dof.name
  exact List.Nodup.sublist this (by simpa [DOFList.names] using hn)

/-- C5: `subset()` with all default arguments is the identity filter: every
mask entry is true, so the result contains exactly the dofs of the original
in order.  The hypothesis is the name-uniqueness invariant, which every
constructed `DOFList` satisfies (C1) and which the re-validating constructor
inside `subset` requires. -/
theorem doflist_subset_default_identity (l : DOFList) (hn : l.names.Nodup) :
    l.subset none none [] = .ok l := by
  rw [subset_no_tags]
  simp only [Bool.and_self, Bool.and_true, List.filter_true]
  unfold DOFList.init
  rw [(validate_ok_iff l.dofs).mpr (by simpa [DOFList.names] using hn)]

/-- C5 witness: `subset` with defaults on a concrete two-element list. -/
theorem doflist_subset_default_identity_witness :
    (DOFList.mk [exDofA, exDofB]).subset none none [] = .ok (DOFList.mk [exDofA, exDofB]) :=
  doflist_subset_default_identity (DOFList.mk [exDofA, exDofB]) (by decide)

/-- C6: `subset(active=a, read_only=r, tags=[])` keeps, in order, exactly the
dofs whose `active` equals `a` and whose `read_only` equals `r`; a `None`
argument (here `Option.none`) imposes no constraint on that attribute. -/
theorem doflist_subset_active_read_only (l : DOFList) (hn : l.names.Nodup)
    (active read_only : Option Bool) :
    l.subset active read_only [] =
      .ok ⟨l.dofs.filter fun dof =>
        ((match active with
          | some a => dof.active == a
          | none => true) &&
         (match read_only with
          | some r => dof.read_only == r
          | none => true))⟩ := by
  rw [subset_no_tags]
  have hcongr : (l.dofs.filter fun dof =>
      ((match read_only with
        | some r => dof.read_only == r
        | none => true) &&
       (match active with
        | some a => dof.active == a
        | none => true) && true)) =
      l.dofs.filter fun dof =>
        ((match active with
          | some a => dof.active == a
          | none => true) &&
         (match read_only with
          | some r => dof.read_only == r
          | none => true)) := by
    apply List.filter_congr
    intro dof _
    cases hA : (match active with
      | some a => dof.active == a
      | none => true) <;>
      cases hR : (match read_only with
        | some r => dof.read_only == r
        | none => true) <;> simp [hA, hR]
  rw [hcongr]
  unfold DOFList.init
  rw [(validate_ok_iff _).mpr (names_nodup_filter l hn _)]

/-- C6 witness: filtering a concrete list on `active=True`, `read_only=True`
keeps neither of its two active, writable dofs. -/
theorem doflist_subset_active_read_only_witness :
    (DOFList.mk [exDofA, exDofB]).subset (some true) (some true) [] =
      .ok (DOFList.mk []) := by
  rw [doflist_subset_active_read_only (DOFList.mk [exDofA, exDofB]) (by decide)
    (some true) (some true)]
  rfl

/-- C2 (code bug): `subset(tags=["t1"])` on a one-element `DOFList` whose dof
carries the tag `t1` raises `TypeError` instead of returning that dof: the
tags mask subscripts the dof (`dof["tags"]`), and the `DOF` dataclass is not
subscriptable. -/
theorem doflist_subset_tags_raises :
    (DOFList.mk [exDofB]).subset none none ["t1"] = .error .typeError := rfl

/-- C7: a `ConstantReadback` constructed with value `c` returns `c` on every
call to `get`, regardless of the clock values and of how many reads came
before. -/
theorem constant_readback_get_constant {α : Type} (c : α) (times : List Nat) :
    (ConstantReadback.mk c).runGets times = times.map fun _ => c := by
  induction times with
  | nil => rfl
  | cons t ts ih => simp [ConstantReadback.runGets, ConstantReadback.get, ih]

/-- C8: `activate` and `deactivate` raise `AttributeError` on every
`DOFList` and every choice of arguments (they call the undefined
`_subset_dofs`), so neither ever returns a modified collection. -/
theorem doflist_activate_deactivate_raise (l : DOFList)
    (read_only active : Option Bool) (tags : List String) :
    l.activate read_only active tags = .error .attributeError ∧
    l.deactivate read_only active tags = .error .attributeError :=
  ⟨rfl, rfl⟩

lemma postInit_ok_iff (args : DOFArgs) (u1 u2 : String) (d : DOF) :
    DOF.postInit args u1 u2 = .ok d ↔
      ((!args.read_only && (resolveDevice args (resolveName args u1)).isSignalRO) = false ∧
       d = { device := { resolveDevice args (resolveName args u1) with kind := "hinted" }
             description := args.description
             name := resolveName args u1
             limits := args.limits
             units := args.units
             read_only := args.read_only
             active := args.active
             tags := args.tags
             log := args.log
             latent_group :=
               match args.latent_group with
               | some g => g
               | none => u2
             uuid := u1 }) := by
  unfold DOF.postInit
  by_cases hc : (!args.read_only && (resolveDevice args (resolveName args u1)).isSignalRO) = true
  · simp [hc]
  · rw [if_neg hc]
    constructor
    · intro h
      exact ⟨by simpa using hc, (Except.ok.inj h).symm⟩
    · intro h
      rw [h.2]

/-- C9: defaults filled by `__post_init__` on success.  A `None` name becomes
the device's name when the device has one, and otherwise (no device, or a
device without a `name` attribute) the fresh UUID `u1`; a `None` device
becomes a fresh `Signal` named after the DOF (hinted, like every DOF
device); a `None` latent group becomes the fresh UUID `u2`.  In the
embedding the constructed `DOF` fields are total, so `name`, `device` and
`latent_group` are always set after success. -/
theorem dof_post_init_defaults (args : DOFArgs) (u1 u2 : String) (d : DOF)
    (h : DOF.postInit args u1 u2 = .ok d) :
    (args.name = none → args.device = none → d.name = u1) ∧
    (args.name = none → ∀ dev, args.device = some dev →
      d.name = dev.name.getD u1) ∧
    (args.device = none → d.device = { mkSignal d.name with kind := "hinted" }) ∧
    (args.latent_group = none → d.latent_group = u2) := by
  obtain ⟨hok, hd⟩ := (postInit_ok_iff args u1 u2 d).mp h
  subst hd
  refine ⟨?_, ?_, ?_, ?_⟩
  · intro h1 h2
    simp [resolveName, h1, h2]
  · intro h1 dev h2
    cases hdn : dev.name with
    | none => simp [resolveName, h1, h2, hdn, Option.getD]
    | some dn => simp [resolveName, h1, h2, hdn, Option.getD]
  · intro h1
    simp [resolveDevice, h1, mkSignal]
  · intro h1
    simp [h1]

/-- C9 witness: constructing `DOF()` with all defaults and UUID draws `u-1`,
`u-2` yields `exDofDefault`, whose name is the first UUID, whose device is
the hinted dummy signal named after it, and whose latent group is the second
UUID. -/
theorem dof_post_init_defaults_witness :
    exDofDefault.name = "u-1" ∧
    exDofDefault.device = { mkSignal exDofDefault.name with kind := "hinted" } ∧
    exDofDefault.latent_group = "u-2" := by
  have h := dof_post_init_defaults {} "u-1" "u-2" exDofDefault rfl
  exact ⟨h.1 rfl rfl, h.2.2.1 rfl, h.2.2.2 rfl⟩

/-- C10: with a `SignalRO` device, `__post_init__` raises `ValueError` when
`read_only` is left `False`, and succeeds when `read_only=True` is passed. -/
theorem dof_post_init_read_only_check (args : DOFArgs) (dev : Device)
    (hdev : args.device = some dev) (hro : dev.isSignalRO = true)
    (u1 u2 : String) :
    (args.read_only = false → DOF.postInit args u1 u2 = .error .valueError) ∧
    (args.read_only = true → ∃ d, DOF.postInit args u1 u2 = .ok d) := by
  constructor
  · intro hfalse
    unfold DOF.postInit
    simp [resolveDevice, hdev, hro, hfalse]
  · intro htrue
    unfold DOF.postInit
    simp [resolveDevice, hdev, hro, htrue]

/-- C10 witness: a concrete read-only device is rejected with the default
`read_only=False` and accepted with `read_only=True`. -/
theorem dof_post_init_read_only_check_witness :
    (DOF.postInit { device := some exRODevice } "u-1" "u-2" = .error .valueError) ∧
    ∃ d, DOF.postInit { device := some exRODevice, read_only := true } "u-1" "u-2" = .ok d := by
  have h1 := dof_post_init_read_only_check { device := some exRODevice }
    exRODevice rfl rfl "u-1" "u-2"
  have h2 := dof_post_init_read_only_check { device := some exRODevice, read_only := true }
    exRODevice rfl rfl "u-1" "u-2"
  exact ⟨h1.1 rfl, h2.2 rfl⟩

/-- C1 witness: a duplicate-name construction and a duplicate-name `add` are
rejected on concrete inputs, and a concretely constructed `DOFList` is
reachable with distinct names. -/
theorem doflist_name_uniqueness_witness :
    DOFList.init [exDofA, exDofA] = .error .valueError ∧
    DOFList.add (DOFList.mk [exDofA]) exDofA = .error .valueError ∧
    (DOFList.mk [exDofA]).names.Nodup :=
  ⟨doflist_name_uniqueness.1 [exDofA, exDofA] (by decide),
   doflist_name_uniqueness.2.1 (DOFList.mk [exDofA]) exDofA (by decide),
   doflist_name_uniqueness.2.2 (DOFList.mk [exDofA])
     (Reachable.init [exDofA] (DOFList.mk [exDofA]) rfl)⟩

end Blop
